import Mathlib

/-!
Verification of the fixed-timestep simulation loop in
`examples/polygon_polygon_collision.rs` of the `rust-box2d` repository.

The example program owns a fixed-timestep accumulator, forwards elapsed
wall-clock time into discrete physics steps, and renders every body's shape
by converting simulation meters into screen pixels (factor 100).  Floating
point values (`f32`/`f64`) are embedded as rationals, which models the real
arithmetic the algorithm intends.  The physics library itself (the `box2d`
crate: `Vec2`, `World`, `Body`, `World::step`, …) is not part of the example
file; those pieces are modelled from the specification's data model, with a
doc comment saying so on each.
-/

namespace PolygonDemo

/-- Modelled from the spec: the physics library's 2D vector (`box2d::math::Vec2`,
library code not in the example file).  Components are meters, embedded as
rationals. -/
structure Vec2 where
  x : ℚ
  y : ℚ
  deriving DecidableEq

/-- Modelled from the spec: `Vec2::new`. -/
def Vec2.new (x y : ℚ) : Vec2 := ⟨x, y⟩

/-- Modelled from the spec: componentwise vector addition (`impl Add for Vec2`
in the physics library). -/
instance : Add Vec2 := ⟨fun a b => ⟨a.x + b.x, a.y + b.y⟩⟩

lemma Vec2.add_def (a b : Vec2) : a + b = ⟨a.x + b.x, a.y + b.y⟩ := rfl

/-- Modelled from the spec: componentwise scalar multiplication
(`Vec2::multiply` in the physics library), used by the example for the
meters-to-pixels transform. -/
def Vec2.multiply (v : Vec2) (s : ℚ) : Vec2 := ⟨v.x * s, v.y * s⟩

/-- Modelled from the spec: the closed set of four shape variants
(`box2d::shape::shape::Shape`): circle (center, radius), line segment
(two points), open point-chain, closed polygon (ordered point list). -/
inductive Shape where
  | CircleShape (center : Vec2) (radius : ℚ)
  | LineShape (point1 point2 : Vec2)
  | ChainLineShape (points : List Vec2)
  | PolygonShape (points : List Vec2)
  deriving DecidableEq

/-- Modelled from the spec: body kind (`box2d::body::BodyType`), static or
dynamic. -/
inductive BodyType where
  | StaticBody
  | DynamicBody
  deriving DecidableEq

/-- Modelled from the spec: a body definition (`box2d::body::BodyDef`): shape,
kind, position, velocity, restitution, mass, gravity scale. -/
structure BodyDef where
  shape : Shape
  body_type : BodyType
  position : Vec2
  velocity : Vec2
  restitution : ℚ
  mass : ℚ
  gravity_scale : ℚ
  deriving DecidableEq

/-- Modelled from the spec: a simulated body, the record created by inserting
a body definition into the world; its position and velocity are mutated by
every physics step while the shape is immutable after creation. -/
structure Body where
  shape : Shape
  body_type : BodyType
  position : Vec2
  velocity : Vec2
  restitution : ℚ
  mass : ℚ
  gravity_scale : ℚ
  deriving DecidableEq

/-- Modelled from the spec: the world (`box2d::world::World`) owns the gravity
vector and the collection of bodies. -/
structure World where
  gravity : Vec2
  bodies : List Body
  deriving DecidableEq

/-- Modelled from the spec: `World::new(gravity)` constructs a world with the
given gravity vector and no bodies. -/
def World.new (gravity : Vec2) : World := ⟨gravity, []⟩

/-- Modelled from the spec: `World::add_body(def)` inserts the body described
by a body definition at the end of the world's body list; no removal path
exists. -/
def World.add_body (w : World) (d : BodyDef) : World :=
  { w with bodies := w.bodies ++
      [⟨d.shape, d.body_type, d.position, d.velocity, d.restitution, d.mass,
        d.gravity_scale⟩] }

/-- Modelled from the spec: one body under `World::step` (library code not in
the example file).  Per the spec's data model a step mutates each body's
position and velocity (dynamic bodies integrate gravity scaled per body;
static bodies do not move) and leaves the shape, kind, mass, restitution and
gravity scale immutable; contact resolution is delegated to the library and
abstracted away here. -/
def stepBody (dt : ℚ) (gravity : Vec2) (b : Body) : Body :=
  match b.body_type with
  | BodyType.StaticBody => b
  | BodyType.DynamicBody =>
      let v := b.velocity + gravity.multiply (b.gravity_scale * dt)
      { b with velocity := v, position := b.position + v.multiply dt }

/-- Modelled from the spec: `World::step(dt)` advances every body's state by
one fixed step; no body is created or destroyed by a step. -/
def World.step (w : World) (dt : ℚ) : World :=
  { w with bodies := w.bodies.map (stepBody dt w.gravity) }

/-- From the source (`setup_box2d` in the example): a world with gravity
(0, 9.8) and two square polygon bodies (half-extent 0.75 m), one static at
(4.0, 4.0), one dynamic at (3.5, 1.0). -/
def setup_box2d : World :=
  let world := World.new (Vec2.new 0 (9.8 : ℚ))
  let polygon_shape := Shape.PolygonShape [
      Vec2.new (-0.75) (-0.75),
      Vec2.new (-0.75) 0.75,
      Vec2.new 0.75 0.75,
      Vec2.new 0.75 (-0.75)]
  let polygon_body_def : BodyDef :=
    { shape := polygon_shape,
      body_type := BodyType.StaticBody,
      position := Vec2.new 4.0 4.0,
      velocity := Vec2.new 0.0 0.0,
      restitution := 1.0,
      mass := 0.0,
      gravity_scale := 1.0 }
  let world := world.add_body polygon_body_def
  let polygon_shape2 := Shape.PolygonShape [
      Vec2.new (-0.75) (-0.75),
      Vec2.new (-0.75) 0.75,
      Vec2.new 0.75 0.75,
      Vec2.new 0.75 (-0.75)]
  let polygon_body_def2 : BodyDef :=
    { shape := polygon_shape2,
      body_type := BodyType.DynamicBody,
      position := Vec2.new 3.5 1.0,
      velocity := Vec2.new 0.0 0.0,
      restitution := 1.0,
      mass := 1.0,
      gravity_scale := 1.0 }
  let world := world.add_body polygon_body_def2
  world

/-- From the source: `let step = 1.0 / 60.0;`, the fixed physics time step. -/
def step : ℚ := 1 / 60

/-- From the source: `const meters_to_pixels: f32 = 100.0;`. -/
def meters_to_pixels : ℚ := 100

/-- From the source: the inner while loop
`while accumulator >= step && !paused { world.step(step); accumulator -= step }`
run in a frame whose (post-event) paused flag is false.  Returns the leftover
accumulator, the stepped world, and the number of `world.step` calls made. -/
def drainLoop (accumulator : ℚ) (w : World) : ℚ × World × Nat :=
  if h : step ≤ accumulator then
    let r := drainLoop (accumulator - step) (w.step step)
    (r.1, r.2.1, r.2.2 + 1)
  else
    (accumulator, w, 0)
termination_by (⌈accumulator * 60⌉).toNat
decreasing_by
  have h1 : (1 : ℚ) ≤ accumulator * 60 := by
    have : (1 : ℚ) / 60 ≤ accumulator := h
    linarith
  have e : (accumulator - step) * 60 = accumulator * 60 - 1 := by
    simp only [step]; ring
  have h2 : ⌈(accumulator - step) * 60⌉ = ⌈accumulator * 60⌉ - 1 := by
    rw [e]
    exact_mod_cast Int.ceil_sub_int (accumulator * 60) 1
  have h3 : (1 : ℤ) ≤ ⌈accumulator * 60⌉ := by
    have := Int.le_ceil (accumulator * 60)
    exact_mod_cast le_trans h1 this
  rw [h2]
  omega

/-- From the source: the mutable state of the main loop — `current_time`,
`accumulator`, the `paused` flag, and the world. -/
structure LoopState where
  current_time : ℚ
  accumulator : ℚ
  paused : Bool
  world : World
  deriving DecidableEq

/-- One frame's external input: the wall-clock reading `new_time` taken at the
top of the loop body, and the number of Space key-press events drained this
frame (Escape / window-close terminate the loop and are not modelled as
state transitions). -/
structure FrameInput where
  new_time : ℚ
  space_presses : Nat
  deriving DecidableEq

/-- From the source: each Space press runs `paused = !paused`, so draining
`n` presses toggles the flag `n` times. -/
def togglePaused (p : Bool) (n : Nat) : Bool :=
  if n % 2 = 1 then !p else p

/-- From the source:
`let frame_time = if !paused { (new_time - current_time).min(0.2) } else { 0.0 };`. -/
def frame_time (paused : Bool) (new_time current_time : ℚ) : ℚ :=
  if !paused then min (new_time - current_time) (0.2 : ℚ) else 0

/-- From the source: one iteration of the main `while window.is_open()` loop
(event drain, wall-clock read, frame-time clamp, accumulator update, fixed
stepping pass).  Returns the next loop state and the number of `world.step`
calls made this frame.  Rendering reads the state but does not change it. -/
def frameRun (s : LoopState) (inp : FrameInput) : LoopState × Nat :=
  let paused := togglePaused s.paused inp.space_presses
  let ft := frame_time paused inp.new_time s.current_time
  let acc := s.accumulator + ft
  if paused then
    ({ current_time := inp.new_time, accumulator := acc, paused := paused,
       world := s.world }, 0)
  else
    let r := drainLoop acc s.world
    ({ current_time := inp.new_time, accumulator := r.1, paused := paused,
       world := r.2.1 }, r.2.2)

/-- The state part of `frameRun`. -/
def frame (s : LoopState) (inp : FrameInput) : LoopState :=
  (frameRun s inp).1

/-- The frame-time value a frame adds to the accumulator (the clamped elapsed
wall time when running, `0.0` when paused). -/
def frameTimeOf (s : LoopState) (inp : FrameInput) : ℚ :=
  frame_time (togglePaused s.paused inp.space_presses) inp.new_time
    s.current_time

/-- From the source: the state just before the first loop iteration —
`current_time = 0.0`, `accumulator = 0.0`, `paused = true`, and the world
built by `setup_box2d`. -/
def initState : LoopState :=
  { current_time := 0, accumulator := 0, paused := true, world := setup_box2d }

/-- The reachable loop states: the initial state, plus any state produced by
a frame whose wall-clock reading is not earlier than the previous one (the
wall clock is monotone). -/
inductive Reachable : LoopState → Prop where
  | init : Reachable initState
  | next (s : LoopState) (inp : FrameInput) (hs : Reachable s)
      (hmono : s.current_time ≤ inp.new_time) : Reachable (frame s inp)

/-- A run of consecutive frames in which no Space press occurs, given the
wall-clock reading of each frame. -/
def framesNoPress (s : LoopState) (times : List ℚ) : LoopState :=
  times.foldl (fun st t => frame st ⟨t, 0⟩) s

/-- A run of consecutive frames from a state, accumulating the total number
of `world.step` calls. -/
def runFrames (s : LoopState) (inputs : List FrameInput) : LoopState × Nat :=
  inputs.foldl
    (fun p inp =>
      let r := frameRun p.1 inp
      (r.1, p.2 + r.2))
    (s, 0)

/-- From the source: every drawn vertex is
`(world.bodies[i].position + local_point).multiply(meters_to_pixels)`. -/
def transformPoint (position p : Vec2) : Vec2 :=
  (position + p).multiply meters_to_pixels

/-- From the source, circle branch of the render dispatch: the data handed to
the circle draw call — `set_position`, `set_radius`, `set_outline_thickness`,
`set_origin`.  The source shadows `radius` with `radius * meters_to_pixels`
and calls `circle.set_radius(radius - 1.0)` with outline thickness `1.0`. -/
structure CircleDraw where
  position : Vec2
  set_radius : ℚ
  outline_thickness : ℚ
  origin : Vec2
  deriving DecidableEq

/-- From the source: the circle branch of the per-body shape dispatch. -/
def renderCircle (bodyPosition center : Vec2) (radius : ℚ) : CircleDraw :=
  let position := (bodyPosition + center).multiply meters_to_pixels
  let r := radius * meters_to_pixels
  { position := position,
    set_radius := r - 1,
    outline_thickness := 1,
    origin := ⟨r, r⟩ }

/-- From the source: the line branch — the two transformed endpoints appended
to the vertex array. -/
def renderLine (position p1 p2 : Vec2) : List Vec2 :=
  [transformPoint position p1, transformPoint position p2]

/-- From the source: the chain branch — every point transformed, drawn as an
open line strip. -/
def renderChain (position : Vec2) (points : List Vec2) : List Vec2 :=
  points.map (transformPoint position)

/-- From the source: the polygon branch — every point transformed, then the
transformed `points[0]` appended to close the loop.  Indexing `points[0]` on
an empty list panics, modelled as `none`. -/
def renderPolygon (position : Vec2) (points : List Vec2) :
    Option (List Vec2) :=
  match points with
  | [] => none
  | p0 :: _ =>
      some (points.map (transformPoint position) ++
        [transformPoint position p0])

/-- The screen-space vertex positions a body's draw call receives, per shape
variant (for a circle, the single `set_position` argument). -/
def drawnVertices (position : Vec2) (shape : Shape) : Option (List Vec2) :=
  match shape with
  | Shape.CircleShape center radius =>
      some [(renderCircle position center radius).position]
  | Shape.LineShape p1 p2 => some (renderLine position p1 p2)
  | Shape.ChainLineShape points => some (renderChain position points)
  | Shape.PolygonShape points => renderPolygon position points

/-- The local points of a shape: circle center, line endpoints, chain points,
polygon points. -/
def localPoints (shape : Shape) : List Vec2 :=
  match shape with
  | Shape.CircleShape center _ => [center]
  | Shape.LineShape p1 p2 => [p1, p2]
  | Shape.ChainLineShape points => points
  | Shape.PolygonShape points => points

/-! ### Helper lemmas -/

lemma drainLoop_of_lt {acc : ℚ} (w : World) (h : acc < step) :
    drainLoop acc w = (acc, w, 0) := by
  rw [drainLoop, dif_neg (not_le.mpr h)]

lemma floor_div_step_eq_zero {a : ℚ} (h0 : 0 ≤ a) (h1 : a < step) :
    ⌊a / step⌋ = 0 := by
  rw [Int.floor_eq_zero_iff]
  constructor
  · exact div_nonneg h0 (by norm_num [step])
  · rw [div_lt_one (by norm_num [step])]
    exact h1

lemma drainLoop_spec (acc : ℚ) (w : World) (h : 0 ≤ acc) :
    0 ≤ (drainLoop acc w).1 ∧ (drainLoop acc w).1 < step ∧
      ((drainLoop acc w).2.2 : ℤ) = ⌊acc / step⌋ := by
  induction acc, w using drainLoop.induct with
  | case1 a w ha ih =>
      rw [drainLoop, dif_pos ha]
      have h0 : (0 : ℚ) ≤ a - step := by linarith
      obtain ⟨i1, i2, i3⟩ := ih h0
      refine ⟨i1, i2, ?_⟩
      push_cast
      rw [i3]
      have e : a / step = (a - step) / step + 1 := by
        simp only [step]; ring
      rw [e, Int.floor_add_one]
  | case2 a w ha =>
      rw [drainLoop, dif_neg ha]
      push_neg at ha
      exact ⟨h, ha, (floor_div_step_eq_zero h ha).symm⟩

lemma stepBody_shape (dt : ℚ) (g : Vec2) (b : Body) :
    (stepBody dt g b).shape = b.shape := by
  cases h : b.body_type <;> simp [stepBody, h]

lemma step_shapes (w : World) (dt : ℚ) :
    (w.step dt).bodies.map Body.shape = w.bodies.map Body.shape := by
  simp only [World.step, List.map_map]
  exact List.map_congr_left fun b _ => stepBody_shape dt w.gravity b

lemma drainLoop_shapes (acc : ℚ) (w : World) :
    (drainLoop acc w).2.1.bodies.map Body.shape =
      w.bodies.map Body.shape := by
  induction acc, w using drainLoop.induct with
  | case1 a w ha ih =>
      rw [drainLoop, dif_pos ha]
      exact ih.trans (step_shapes w step)
  | case2 a w ha =>
      rw [drainLoop, dif_neg ha]

lemma frameRun_paused (s : LoopState) (inp : FrameInput)
    (hp : togglePaused s.paused inp.space_presses = true) :
    frameRun s inp =
      ({ current_time := inp.new_time, accumulator := s.accumulator,
         paused := true, world := s.world }, 0) := by
  simp [frameRun, hp, frame_time]

lemma frameRun_running (s : LoopState) (inp : FrameInput)
    (hp : togglePaused s.paused inp.space_presses = false) :
    frameRun s inp =
      ({ current_time := inp.new_time,
         accumulator :=
           (drainLoop
             (s.accumulator + min (inp.new_time - s.current_time) (0.2 : ℚ))
             s.world).1,
         paused := false,
         world :=
           (drainLoop
             (s.accumulator + min (inp.new_time - s.current_time) (0.2 : ℚ))
             s.world).2.1 },
       (drainLoop
         (s.accumulator + min (inp.new_time - s.current_time) (0.2 : ℚ))
         s.world).2.2) := by
  simp [frameRun, hp, frame_time]

lemma frameTimeOf_paused (s : LoopState) (inp : FrameInput)
    (hp : togglePaused s.paused inp.space_presses = true) :
    frameTimeOf s inp = 0 := by
  simp [frameTimeOf, hp, frame_time]

lemma frameTimeOf_running (s : LoopState) (inp : FrameInput)
    (hp : togglePaused s.paused inp.space_presses = false) :
    frameTimeOf s inp = min (inp.new_time - s.current_time) (0.2 : ℚ) := by
  simp [frameTimeOf, hp, frame_time]

lemma reachable_acc (s : LoopState) (hs : Reachable s) :
    0 ≤ s.accumulator ∧ s.accumulator < step := by
  induction hs with
  | init => norm_num [initState, step]
  | next s inp hs hmono ih =>
      by_cases hp : togglePaused s.paused inp.space_presses = true
      · rw [frame, frameRun_paused s inp hp]
        exact ih
      · rw [Bool.not_eq_true] at hp
        rw [frame, frameRun_running s inp hp]
        have hft : (0 : ℚ) ≤ min (inp.new_time - s.current_time) (0.2 : ℚ) :=
          le_min (by linarith) (by norm_num)
        have hspec := drainLoop_spec
          (s.accumulator + min (inp.new_time - s.current_time) (0.2 : ℚ))
          s.world (add_nonneg ih.1 hft)
        exact ⟨hspec.1, hspec.2.1⟩

/-! ### Claim theorems -/

/-- C1: in every reachable frame iteration, the number of fixed physics steps
executed (calls to `world.step`) equals `⌊accumulator / step⌋` evaluated just
after the frame time has been added to the accumulator and before the stepping
pass, with `step = 1/60`; and after the stepping pass the leftover accumulator
lies in `[0, step)`.  This includes paused frames, where zero steps run. -/
theorem C1_fixed_step_count (s : LoopState) (hs : Reachable s)
    (inp : FrameInput) (hmono : s.current_time ≤ inp.new_time) :
    ((frameRun s inp).2 : ℤ) =
        ⌊(s.accumulator + frameTimeOf s inp) / step⌋ ∧
      0 ≤ (frameRun s inp).1.accumulator ∧
      (frameRun s inp).1.accumulator < step := by
  have hinv := reachable_acc s hs
  by_cases hp : togglePaused s.paused inp.space_presses = true
  · rw [frameRun_paused s inp hp, frameTimeOf_paused s inp hp]
    refine ⟨?_, hinv.1, hinv.2⟩
    rw [add_zero]
    exact_mod_cast (floor_div_step_eq_zero hinv.1 hinv.2).symm
  · rw [Bool.not_eq_true] at hp
    rw [frameRun_running s inp hp, frameTimeOf_running s inp hp]
    have hft : (0 : ℚ) ≤ min (inp.new_time - s.current_time) (0.2 : ℚ) :=
      le_min (by linarith) (by norm_num)
    have hspec := drainLoop_spec
      (s.accumulator + min (inp.new_time - s.current_time) (0.2 : ℚ))
      s.world (add_nonneg hinv.1 hft)
    exact ⟨hspec.2.2, hspec.1, hspec.2.1⟩

/-- Witness for C1 at the initial (paused) state. -/
theorem C1_fixed_step_count_witness :
    ((frameRun initState ⟨5, 0⟩).2 : ℤ) =
        ⌊(initState.accumulator + frameTimeOf initState ⟨5, 0⟩) / step⌋ ∧
      0 ≤ (frameRun initState ⟨5, 0⟩).1.accumulator ∧
      (frameRun initState ⟨5, 0⟩).1.accumulator < step :=
  C1_fixed_step_count initState Reachable.init ⟨5, 0⟩ (by norm_num [initState])

/-- C2: a frame whose (post-event) paused flag is set leaves the accumulator
unchanged, invokes no physics step, and leaves the world untouched,
regardless of the elapsed wall-clock time. -/
theorem C2_paused_frame (s : LoopState) (inp : FrameInput)
    (hp : togglePaused s.paused inp.space_presses = true) :
    (frameRun s inp).1.accumulator = s.accumulator ∧
      (frameRun s inp).2 = 0 ∧
      (frameRun s inp).1.world = s.world := by
  rw [frameRun_paused s inp hp]
  exact ⟨rfl, rfl, rfl⟩

/-- Witness for C2: the initial state is paused, and a frame with a huge
elapsed time changes nothing. -/
theorem C2_paused_frame_witness :
    (frameRun initState ⟨1000, 0⟩).1.accumulator = initState.accumulator ∧
      (frameRun initState ⟨1000, 0⟩).2 = 0 ∧
      (frameRun initState ⟨1000, 0⟩).1.world = initState.world :=
  C2_paused_frame initState ⟨1000, 0⟩ rfl

/-- C5 counterexample: a paused frame with elapsed wall-clock time 1 s
(≥ 0.2 s) feeds 0, not 0.2, to the accumulator — the claim as stated does
not except paused frames. -/
theorem C5_counterexample :
    (0.2 : ℚ) ≤ (1 : ℚ) - initState.current_time ∧
      frameTimeOf initState ⟨1, 0⟩ = 0 ∧
      frameTimeOf initState ⟨1, 0⟩ ≠ (0.2 : ℚ) ∧
      (frame initState ⟨1, 0⟩).accumulator = initState.accumulator := by
  refine ⟨by norm_num [initState], ?_, ?_, ?_⟩
  · exact frameTimeOf_paused initState ⟨1, 0⟩ rfl
  · rw [frameTimeOf_paused initState ⟨1, 0⟩ rfl]
    norm_num
  · rw [frame, frameRun_paused initState ⟨1, 0⟩ rfl]

/-- C5 (amended): in every frame that is not paused after event handling,
if the elapsed wall-clock time since the previous frame is at least 0.2 s,
the clamped frame-time value fed to the accumulator is exactly 0.2 s;
a paused frame feeds 0 instead. -/
theorem C5_clamp (s : LoopState) (inp : FrameInput)
    (hp : togglePaused s.paused inp.space_presses = false)
    (h : (0.2 : ℚ) ≤ inp.new_time - s.current_time) :
    frameTimeOf s inp = (0.2 : ℚ) := by
  rw [frameTimeOf_running s inp hp]
  exact min_eq_right h

/-- Witness for C5: unpausing from the initial state with 1 s elapsed clamps
the frame time to 0.2 s. -/
theorem C5_clamp_witness :
    frameTimeOf initState ⟨1, 1⟩ = (0.2 : ℚ) :=
  C5_clamp initState ⟨1, 1⟩ rfl (by norm_num [initState])

/-- C8: `current_time` is updated on every frame, paused or not, so the frame
on which the program unpauses adds to the accumulator only the (clamped)
wall-clock time elapsed since the immediately preceding frame, never the
accumulated duration of the pause. -/
theorem C8_no_time_jump (sprev : LoopState) (inpprev inp : FrameInput) :
    (frame sprev inpprev).current_time = inpprev.new_time ∧
      (togglePaused (frame sprev inpprev).paused inp.space_presses = false →
        frameTimeOf (frame sprev inpprev) inp =
          min (inp.new_time - inpprev.new_time) (0.2 : ℚ)) := by
  have hct : (frame sprev inpprev).current_time = inpprev.new_time := by
    by_cases hp : togglePaused sprev.paused inpprev.space_presses = true
    · rw [frame, frameRun_paused sprev inpprev hp]
    · rw [Bool.not_eq_true] at hp
      rw [frame, frameRun_running sprev inpprev hp]
  refine ⟨hct, fun hp2 => ?_⟩
  rw [frameTimeOf_running _ inp hp2, hct]

/-- Witness for C8: after a paused frame read at t = 1, unpausing at t = 2
adds only the one elapsed second (clamped to 0.2 s), not the pause length. -/
theorem C8_no_time_jump_witness :
    (frame initState ⟨1, 0⟩).current_time = (1 : ℚ) ∧
      frameTimeOf (frame initState ⟨1, 0⟩) ⟨2, 1⟩ =
        min ((2 : ℚ) - 1) (0.2 : ℚ) :=
  ⟨(C8_no_time_jump initState ⟨1, 0⟩ ⟨2, 1⟩).1,
   (C8_no_time_jump initState ⟨1, 0⟩ ⟨2, 1⟩).2 rfl⟩

/-- C3: every screen-space vertex position handed to a draw call — the circle
center position, the line endpoints, the chain points, and the polygon points
including the closing vertex — equals
`(body.position + local_point) * meters_to_pixels` for some local point of
the shape, with `meters_to_pixels = 100`. -/
theorem C3_vertex_transform (position : Vec2) (shape : Shape)
    (vs : List Vec2) (h : drawnVertices position shape = some vs) :
    ∀ v ∈ vs, ∃ p ∈ localPoints shape,
      v = (position + p).multiply meters_to_pixels := by
  cases shape with
  | CircleShape center radius =>
      simp only [drawnVertices, Option.some.injEq] at h
      subst h
      intro v hv
      simp only [renderCircle, List.mem_singleton] at hv
      exact ⟨center, by simp [localPoints], hv⟩
  | LineShape p1 p2 =>
      simp only [drawnVertices, Option.some.injEq] at h
      subst h
      intro v hv
      simp only [renderLine, transformPoint, List.mem_cons,
        List.mem_singleton, List.not_mem_nil, or_false] at hv
      rcases hv with hv | hv
      · exact ⟨p1, by simp [localPoints], hv⟩
      · exact ⟨p2, by simp [localPoints], hv⟩
  | ChainLineShape points =>
      simp only [drawnVertices, Option.some.injEq] at h
      subst h
      intro v hv
      simp only [renderChain, List.mem_map] at hv
      obtain ⟨p, hp, hv⟩ := hv
      exact ⟨p, by simpa [localPoints] using hp, by
        rw [← hv]; simp [transformPoint]⟩
  | PolygonShape points =>
      cases points with
      | nil => simp [drawnVertices, renderPolygon] at h
      | cons p0 rest =>
          simp only [drawnVertices, renderPolygon, Option.some.injEq] at h
          subst h
          intro v hv
          rw [List.mem_append] at hv
          rcases hv with hv | hv
          · rw [List.mem_map] at hv
            obtain ⟨p, hp, hv⟩ := hv
            exact ⟨p, by simpa [localPoints] using hp, by
              rw [← hv]; simp [transformPoint]⟩
          · rw [List.mem_singleton] at hv
            exact ⟨p0, by simp [localPoints], by
              rw [hv]; simp [transformPoint]⟩

/-- Witness for C3: the closing vertex of a one-point polygon at body
position (0, 0) is the transform of that point. -/
theorem C3_vertex_transform_witness :
    ∃ p ∈ localPoints (Shape.PolygonShape [Vec2.new 1 2]),
      Vec2.new 100 200 = (Vec2.new 0 0 + p).multiply meters_to_pixels :=
  C3_vertex_transform (Vec2.new 0 0) (Shape.PolygonShape [Vec2.new 1 2])
    [Vec2.new 100 200, Vec2.new 100 200]
    (by norm_num [drawnVertices, renderPolygon, transformPoint, Vec2.multiply,
          Vec2.add_def, Vec2.new, meters_to_pixels])
    (Vec2.new 100 200) (by simp)

/-- C4 counterexample: for a circle of simulation radius 0.5 m the radius
handed to the circle draw call's `set_radius` is 49, not
`0.5 * meters_to_pixels = 50` — the source subtracts 1.0 after scaling. -/
theorem C4_counterexample :
    (renderCircle (Vec2.new 0 0) (Vec2.new 0 0) (0.5 : ℚ)).set_radius ≠
      (0.5 : ℚ) * meters_to_pixels := by
  norm_num [renderCircle, meters_to_pixels]

/-- C4 (amended): the rendered circle reflects the current body position
scaled by `meters_to_pixels`, and the radius handed to `set_radius` is the
simulation radius times `meters_to_pixels` minus 1; together with the
outline thickness of 1 the outer edge of the drawn outline lies exactly at
the simulation radius times `meters_to_pixels`. -/
theorem C4_circle_radius (bodyPosition center : Vec2) (radius : ℚ) :
    (renderCircle bodyPosition center radius).set_radius =
        radius * meters_to_pixels - 1 ∧
      (renderCircle bodyPosition center radius).set_radius +
          (renderCircle bodyPosition center radius).outline_thickness =
        radius * meters_to_pixels ∧
      (renderCircle bodyPosition center radius).position =
        (bodyPosition + center).multiply meters_to_pixels := by
  refine ⟨rfl, ?_, rfl⟩
  show radius * meters_to_pixels - 1 + 1 = radius * meters_to_pixels
  ring

/-- C6: rendering a polygon with a non-empty input point list of length `n`
hands the draw call exactly `n + 1` vertices — the `n` transformed points in
order, then a final vertex equal to the first. -/
theorem C6_closed_polygon (position : Vec2) (points out : List Vec2)
    (h : renderPolygon position points = some out) :
    out.length = points.length + 1 ∧
      out.take points.length = points.map (transformPoint position) ∧
      out.head? = out.getLast? := by
  cases points with
  | nil => simp [renderPolygon] at h
  | cons p0 rest =>
      simp only [renderPolygon, Option.some.injEq] at h
      subst h
      refine ⟨by simp, by simp, ?_⟩
      rw [List.getLast?_concat]
      simp

/-- Witness for C6 on a concrete two-point polygon. -/
theorem C6_closed_polygon_witness :
    ([Vec2.new 0 0, Vec2.new 100 0, Vec2.new 0 0] : List Vec2).length =
        ([Vec2.new 0 0, Vec2.new 1 0] : List Vec2).length + 1 ∧
      ([Vec2.new 0 0, Vec2.new 100 0, Vec2.new 0 0] : List Vec2).take
          ([Vec2.new 0 0, Vec2.new 1 0] : List Vec2).length =
        ([Vec2.new 0 0, Vec2.new 1 0] : List Vec2).map
          (transformPoint (Vec2.new 0 0)) ∧
      ([Vec2.new 0 0, Vec2.new 100 0, Vec2.new 0 0] : List Vec2).head? =
        ([Vec2.new 0 0, Vec2.new 100 0, Vec2.new 0 0] : List Vec2).getLast? :=
  C6_closed_polygon (Vec2.new 0 0) [Vec2.new 0 0, Vec2.new 1 0]
    [Vec2.new 0 0, Vec2.new 100 0, Vec2.new 0 0]
    (by simp [renderPolygon, transformPoint, Vec2.multiply, Vec2.add_def,
          Vec2.new, meters_to_pixels])

lemma framesNoPress_paused (times : List ℚ) (s : LoopState)
    (hp : s.paused = true) :
    (framesNoPress s times).paused = true ∧
      (framesNoPress s times).accumulator = s.accumulator ∧
      (framesNoPress s times).world = s.world := by
  induction times generalizing s with
  | nil => exact ⟨hp, rfl, rfl⟩
  | cons t ts ih =>
      have hpp : togglePaused s.paused 0 = true := by
        simp [togglePaused, hp]
      have hfr : frame s ⟨t, 0⟩ =
          { current_time := t, accumulator := s.accumulator, paused := true,
            world := s.world } := by
        rw [frame, frameRun_paused s ⟨t, 0⟩ hpp]
      simp only [framesNoPress, List.foldl_cons] at ih ⊢
      rw [hfr]
      exact ih _ rfl

/-- C7 (amended): if the system is Running, pressing Space pauses it, any
number of intervening frames leave the accumulator and the world unchanged
(frame time is 0 throughout the paused interval), and a second Space press
returns the flag to its original Running value with the accumulator at that
point unchanged from its pre-toggle value.  (When the system is initially
Paused instead, the two presses still restore the flag but the accumulator
may change during the running interval — see the counterexample.) -/
theorem C7_toggle_twice (s0 : LoopState) (t1 : ℚ) (times : List ℚ)
    (hp : s0.paused = false) :
    (framesNoPress (frame s0 ⟨t1, 1⟩) times).paused = true ∧
      (framesNoPress (frame s0 ⟨t1, 1⟩) times).accumulator =
        s0.accumulator ∧
      (framesNoPress (frame s0 ⟨t1, 1⟩) times).world = s0.world ∧
      togglePaused (framesNoPress (frame s0 ⟨t1, 1⟩) times).paused 1 =
        s0.paused := by
  have hpp : togglePaused s0.paused 1 = true := by
    simp [togglePaused, hp]
  have hfr : frame s0 ⟨t1, 1⟩ =
      { current_time := t1, accumulator := s0.accumulator, paused := true,
        world := s0.world } := by
    rw [frame, frameRun_paused s0 ⟨t1, 1⟩ hpp]
  have hacc : (frame s0 ⟨t1, 1⟩).accumulator = s0.accumulator := by rw [hfr]
  have hw : (frame s0 ⟨t1, 1⟩).world = s0.world := by rw [hfr]
  have hpd : (frame s0 ⟨t1, 1⟩).paused = true := by rw [hfr]
  obtain ⟨h1, h2, h3⟩ := framesNoPress_paused times (frame s0 ⟨t1, 1⟩) hpd
  refine ⟨h1, h2.trans hacc, h3.trans hw, ?_⟩
  rw [h1, hp]
  simp [togglePaused]

/-- Witness for C7 on a concrete running state with a two-frame pause. -/
theorem C7_toggle_twice_witness :
    (framesNoPress
        (frame ⟨0, 1/120, false, setup_box2d⟩ ⟨1, 1⟩) [2, 3]).paused = true ∧
      (framesNoPress
        (frame ⟨0, 1/120, false, setup_box2d⟩ ⟨1, 1⟩) [2, 3]).accumulator =
        (⟨0, 1/120, false, setup_box2d⟩ : LoopState).accumulator ∧
      (framesNoPress
        (frame ⟨0, 1/120, false, setup_box2d⟩ ⟨1, 1⟩) [2, 3]).world =
        (⟨0, 1/120, false, setup_box2d⟩ : LoopState).world ∧
      togglePaused
        (framesNoPress
          (frame ⟨0, 1/120, false, setup_box2d⟩ ⟨1, 1⟩) [2, 3]).paused 1 =
        (⟨0, 1/120, false, setup_box2d⟩ : LoopState).paused :=
  C7_toggle_twice ⟨0, 1/120, false, setup_box2d⟩ 1 [2, 3] rfl

/-- C7 counterexample: starting from the initial Paused state, pressing Space
(unpausing), letting one 10 ms frame run, and pressing Space again restores
the Paused flag but leaves the accumulator at 1/100, not at its pre-toggle
value 0 — the claim's accumulator clause fails when the pre-press state is
Paused. -/
theorem C7_counterexample :
    togglePaused (frame (frame initState ⟨0, 1⟩) ⟨1/100, 0⟩).paused 1 =
        initState.paused ∧
      (frame (frame initState ⟨0, 1⟩) ⟨1/100, 0⟩).accumulator ≠
        initState.accumulator := by
  have h1 : frame initState ⟨0, 1⟩ =
      { current_time := 0, accumulator := 0, paused := false,
        world := setup_box2d } := by
    rw [frame, frameRun_running initState ⟨0, 1⟩ rfl]
    norm_num [initState]
    rw [drainLoop_of_lt setup_box2d (by norm_num [step])]
    exact ⟨rfl, rfl⟩
  have h2 : (frame (frame initState ⟨0, 1⟩) ⟨1/100, 0⟩).accumulator =
      1/100 := by
    rw [h1, frame, frameRun_running
      { current_time := 0, accumulator := 0, paused := false,
        world := setup_box2d } ⟨1/100, 0⟩ rfl]
    norm_num
    rw [drainLoop_of_lt setup_box2d (by norm_num [step])]
  have h3 : (frame (frame initState ⟨0, 1⟩) ⟨1/100, 0⟩).paused = false := by
    rw [h1, frame, frameRun_running
      { current_time := 0, accumulator := 0, paused := false,
        world := setup_box2d } ⟨1/100, 0⟩ rfl]
  constructor
  · rw [h3]
    simp [togglePaused, initState]
  · rw [h2]
    norm_num [initState]

lemma runFrames_paused (inputs : List FrameInput) (s : LoopState)
    (hp : s.paused = true) (h : ∀ inp ∈ inputs, inp.space_presses = 0) :
    (runFrames s inputs).1.paused = true ∧
      (runFrames s inputs).1.world = s.world ∧
      (runFrames s inputs).2 = 0 := by
  induction inputs generalizing s with
  | nil => exact ⟨hp, rfl, rfl⟩
  | cons inp ins ih =>
      have h0 : inp.space_presses = 0 := h inp (List.mem_cons_self _ _)
      have hpp : togglePaused s.paused inp.space_presses = true := by
        simp [togglePaused, h0, hp]
      have hfr := frameRun_paused s inp hpp
      simp only [runFrames, List.foldl_cons] at ih ⊢
      rw [hfr]
      simpa using ih
        { current_time := inp.new_time, accumulator := s.accumulator,
          paused := true, world := s.world } rfl
        (fun i hi => h i (List.mem_cons_of_mem _ hi))

/-- C9: the program starts with the paused flag set, so over any run of
frames in which Space is never pressed, the flag stays set, no physics step
is ever executed, and the world — hence every body — is exactly the initial
scene built by `setup_box2d`. -/
theorem C9_starts_paused (inputs : List FrameInput)
    (h : ∀ inp ∈ inputs, inp.space_presses = 0) :
    initState.paused = true ∧
      (runFrames initState inputs).1.paused = true ∧
      (runFrames initState inputs).1.world = setup_box2d ∧
      (runFrames initState inputs).2 = 0 := by
  obtain ⟨h1, h2, h3⟩ := runFrames_paused inputs initState rfl h
  exact ⟨rfl, h1, h2, h3⟩

/-- Witness for C9 on a concrete two-frame pressless run. -/
theorem C9_starts_paused_witness :
    initState.paused = true ∧
      (runFrames initState [⟨1, 0⟩, ⟨2, 0⟩]).1.paused = true ∧
      (runFrames initState [⟨1, 0⟩, ⟨2, 0⟩]).1.world = setup_box2d ∧
      (runFrames initState [⟨1, 0⟩, ⟨2, 0⟩]).2 = 0 :=
  C9_starts_paused [⟨1, 0⟩, ⟨2, 0⟩] (by simp)

lemma reachable_shapes (s : LoopState) (hs : Reachable s) :
    s.world.bodies.map Body.shape = setup_box2d.bodies.map Body.shape := by
  induction hs with
  | init => rfl
  | next s inp hs hmono ih =>
      by_cases hp : togglePaused s.paused inp.space_presses = true
      · rw [frame, frameRun_paused s inp hp]
        exact ih
      · rw [Bool.not_eq_true] at hp
        rw [frame, frameRun_running s inp hp]
        exact (drainLoop_shapes _ s.world).trans ih

/-- C10: in every reachable state, every body whose shape is a polygon has a
non-empty point list — both bodies are created in `setup_box2d` with
four-point polygon shapes, shapes are immutable across physics steps, and no
body is added or removed during the loop — so the `points[0]` indexing that
closes the rendered polygon is in bounds and `renderPolygon` never hits its
panic (`none`) case. -/
theorem C10_polygon_index_safe (s : LoopState) (hs : Reachable s)
    (b : Body) (hb : b ∈ s.world.bodies) (points : List Vec2)
    (hshape : b.shape = Shape.PolygonShape points) :
    points ≠ [] ∧ (renderPolygon b.position points).isSome = true := by
  have hmem : b.shape ∈ s.world.bodies.map Body.shape :=
    List.mem_map_of_mem Body.shape hb
  rw [reachable_shapes s hs] at hmem
  have hsq : b.shape = Shape.PolygonShape [
      Vec2.new (-0.75) (-0.75), Vec2.new (-0.75) 0.75,
      Vec2.new 0.75 0.75, Vec2.new 0.75 (-0.75)] := by
    simpa [setup_box2d, World.new, World.add_body] using hmem
  rw [hshape] at hsq
  have hpts : points = [
      Vec2.new (-0.75) (-0.75), Vec2.new (-0.75) 0.75,
      Vec2.new 0.75 0.75, Vec2.new 0.75 (-0.75)] := by
    injection hsq
  subst hpts
  exact ⟨by simp, by simp [renderPolygon]⟩

/-- Witness for C10 at the initial state's static body. -/
theorem C10_polygon_index_safe_witness :
    ([Vec2.new (-0.75) (-0.75), Vec2.new (-0.75) 0.75,
        Vec2.new 0.75 0.75, Vec2.new 0.75 (-0.75)] : List Vec2) ≠ [] ∧
      (renderPolygon (Vec2.new 4.0 4.0)
        [Vec2.new (-0.75) (-0.75), Vec2.new (-0.75) 0.75,
         Vec2.new 0.75 0.75, Vec2.new 0.75 (-0.75)]).isSome = true :=
  C10_polygon_index_safe initState Reachable.init
    ⟨Shape.PolygonShape [
        Vec2.new (-0.75) (-0.75), Vec2.new (-0.75) 0.75,
        Vec2.new 0.75 0.75, Vec2.new 0.75 (-0.75)],
      BodyType.StaticBody, Vec2.new 4.0 4.0, Vec2.new 0.0 0.0, 1.0, 0.0, 1.0⟩
    (by simp [initState, setup_box2d, World.new, World.add_body])
    _ rfl

end PolygonDemo
